import Mathlib

/-!
Verification of the analytic core of `libboard.py` (book-collection dashboard).

The source computes its metrics with SQL aggregates over a `livros` table and
post-processes them with pandas.  We embed the rows of that table as a list of
`Book` records and translate each query / dataframe transformation into a Lean
function, keeping the SQL NULL semantics explicit via `Option`:

* SQL `sum(col)` skips NULLs and returns NULL when no non-NULL input exists
  (`sqlSum`);
* SQL `avg(col)` likewise (`sqlAvg`);
* `WHERE col IS NOT NULL`, `WHERE preco_pago > 0`, `GROUP BY` are filters,
  and grouping over a column yields one entry per distinct value present;
* the pandas gap-fill `range(min, max+1)` / `merge(how="left")` / `fillna(0)`
  of `get_books_by_year` and `get_expenditure_by_year` is `complete`; on an
  empty frame `df["ano"].min()` is NaN and `range(NaN, NaN+1)` raises
  `TypeError`, which we model by returning `none`;
* `cumsum` is `cumAux`;
* the two Dash callbacks `update_table` and
  `update_table_books_read_in_each_year` are embedded with Python truthiness
  of the selection made explicit (`None` and `[]` and the integer `0` are
  falsy).

Numeric values (prices) are embedded as `ℚ`.
-/

set_option autoImplicit false

namespace LibBoard

/-- A row of the `livros` table, with the column names of the source schema.
`preco_pago`, `ano_aquisicao` and `ano_primeira_leitura` are nullable. -/
structure Book where
  autor : String
  titulo : String
  tipo : String
  preco_pago : Option ℚ
  ano_aquisicao : Option Int
  ano_primeira_leitura : Option Int
  copia_no_acervo : Bool
  deriving Repr, DecidableEq

/-- One step of the SQL `SUM` aggregate: the accumulator starts as NULL, a NULL
input leaves it unchanged, a non-NULL input is added (a NULL accumulator counts
as 0 at the first non-NULL input). -/
def sqlSumStep (acc : Option ℚ) (x : Option ℚ) : Option ℚ :=
  match x with
  | none => acc
  | some v => some (acc.getD 0 + v)

/-- SQL `SUM` over a column: NULL when every input is NULL (in particular over
zero rows), otherwise the sum of the non-NULL inputs. -/
def sqlSum (l : List (Option ℚ)) : Option ℚ :=
  l.foldl sqlSumStep none

/-- SQL `AVG` over a column: NULL when every input is NULL, otherwise the sum
of the non-NULL inputs divided by their count. -/
def sqlAvg (l : List (Option ℚ)) : Option ℚ :=
  match l.filterMap id with
  | [] => none
  | v :: vs => some ((v :: vs).sum / (v :: vs).length)

/-- The prices that are present (non-NULL) in a row set, in row order. -/
def presentPrices (rows : List Book) : List ℚ :=
  rows.filterMap (·.preco_pago)

/-- Embeds `get_total_price_paid`: `SELECT sum(preco_pago) FROM livros`. -/
def get_total_price_paid (rows : List Book) : Option ℚ :=
  sqlSum (rows.map (·.preco_pago))

/-! ### The series completer (gap filling) -/

/-- Value stored for year `y` in a sparse year series, when present (the
left-join lookup of the pandas `merge` on column `ano`). -/
def lookupYear (s : List (Int × ℚ)) (y : Int) : Option ℚ :=
  (s.find? (fun p => p.1 == y)).map (·.2)

/-- Minimum of the `ano` column of a sparse series (`df["ano"].min()`);
0 is a dummy for the empty frame, where pandas yields NaN. -/
def minKey (s : List (Int × ℚ)) : Int :=
  match s with
  | [] => 0
  | p :: ps => ps.foldl (fun m q => min m q.1) p.1

/-- Maximum of the `ano` column of a sparse series (`df["ano"].max()`);
0 is a dummy for the empty frame, where pandas yields NaN. -/
def maxKey (s : List (Int × ℚ)) : Int :=
  match s with
  | [] => 0
  | p :: ps => ps.foldl (fun m q => max m q.1) p.1

/-- The merge-and-fill step over an explicit year range: one entry per year
from `lo` to `hi` inclusive, keeping the sparse value where present and
filling 0 elsewhere (`merge(..., how="left").fillna(0)`). -/
def completeRange (s : List (Int × ℚ)) (lo hi : Int) : List (Int × ℚ) :=
  (List.range (hi - lo + 1).toNat).map
    (fun (i : Nat) => (lo + (i : Int), (lookupYear s (lo + (i : Int))).getD 0))

/-- The gap-filling step shared by `get_books_by_year` and
`get_expenditure_by_year`: build `range(min, max+1)` from the sparse frame and
left-merge with zero fill.  On an empty sparse frame the source raises
(`range` applied to NaN bounds), modelled as `none`. -/
def complete (s : List (Int × ℚ)) : Option (List (Int × ℚ)) :=
  match s with
  | [] => none
  | _ :: _ => some (completeRange s (minKey s) (maxKey s))

/-! ### Expenditure by year and its cumulative series -/

/-- The distinct acquisition years present in the row set
(`GROUP BY ano_aquisicao` under `WHERE ano_aquisicao IS NOT NULL`). -/
def acqYears (rows : List Book) : List Int :=
  (rows.filterMap (·.ano_aquisicao)).dedup

/-- Expenditure attributed to year `y`: SQL `sum(preco_pago)` over the rows
acquired in `y`.  A group whose prices are all NULL gives SQL NULL, which the
subsequent `fillna(0)` turns into 0, so we resolve the NULL to 0 here. -/
def yearExpend (rows : List Book) (y : Int) : ℚ :=
  (sqlSum ((rows.filter (fun r => r.ano_aquisicao == some y)).map (·.preco_pago))).getD 0

/-- The sparse frame produced by the expenditure query: one `(ano, valor gasto)`
entry per distinct acquisition year. -/
def expenditureSparse (rows : List Book) : List (Int × ℚ) :=
  (acqYears rows).map (fun y => (y, yearExpend rows y))

/-- The pandas `cumsum` over the `valor gasto` column: each `(year, value)`
entry becomes `(year, value, running total)`, threading the accumulator. -/
def cumAux (acc : ℚ) : List (Int × ℚ) → List (Int × ℚ × ℚ)
  | [] => []
  | (y, v) :: rest => (y, v, acc + v) :: cumAux (acc + v) rest

/-- Embeds the dataframe computed by `get_expenditure_by_year`: sparse group
sums, gap fill over `range(min, max+1)`, then the cumulative column.
`none` models the `TypeError` the source raises when no row has an
acquisition year. -/
def get_expenditure_by_year (rows : List Book) : Option (List (Int × ℚ × ℚ)) :=
  (complete (expenditureSparse rows)).map (cumAux 0)

/-! ### Books read by year -/

/-- The distinct first-read years present in the row set. -/
def readYears (rows : List Book) : List Int :=
  (rows.filterMap (·.ano_primeira_leitura)).dedup

/-- The sparse frame of the reading-count query: one `(ano, leituras)` entry
per distinct first-read year (counts embedded in `ℚ`). -/
def booksByYearSparse (rows : List Book) : List (Int × ℚ) :=
  (readYears rows).map
    (fun y => (y, ((rows.filter (fun r => r.ano_primeira_leitura == some y)).length : ℚ)))

/-- Embeds the dataframe computed by `get_books_by_year`: sparse reading
counts, then the same gap fill as the expenditure series. -/
def get_books_by_year (rows : List Book) : Option (List (Int × ℚ)) :=
  complete (booksByYearSparse rows)

/-! ### Average prices -/

/-- The `WHERE preco_pago > 0` predicate; a NULL price fails the comparison. -/
def qualifying (r : Book) : Bool :=
  match r.preco_pago with
  | some p => decide (0 < p)
  | none => false

/-- The scalar extracted by `get_avg_books_price`:
`SELECT avg(preco_pago) FROM livros WHERE preco_pago > 0`. -/
def avg_book_price_query (rows : List Book) : Option ℚ :=
  sqlAvg ((rows.filter qualifying).map (·.preco_pago))

/-- The number indicator each average-price figure wraps: the displayed value
is whatever scalar the query produced, NULL included. -/
structure Indicator where
  title : String
  value : Option ℚ
  valueformat : String
  deriving Repr, DecidableEq

/-- Embeds `get_avg_books_price`: the indicator figure whose `value` is the
raw query scalar. -/
def get_avg_books_price (rows : List Book) : Indicator :=
  ⟨"Preço médio dos livros", avg_book_price_query rows, ".2f"⟩

/-- The scalar extracted by `get_avg_book_price_by_type`:
`avg(preco_pago)` under `tipo = t AND preco_pago > 0`. -/
def avg_book_price_by_type_query (rows : List Book) (t : String) : Option ℚ :=
  sqlAvg ((rows.filter (fun r => r.tipo == t && qualifying r)).map (·.preco_pago))

/-- Embeds `get_avg_book_price_by_type`. -/
def get_avg_book_price_by_type (rows : List Book) (t : String) : Indicator :=
  ⟨"Preço médio dos livros do tipo " ++ t, avg_book_price_by_type_query rows t, ".2f"⟩

/-! ### Availability -/

/-- Number of rows whose `copia_no_acervo` flag equals `b`. -/
def countFlag (rows : List Book) (b : Bool) : Nat :=
  (rows.filter (fun r => r.copia_no_acervo == b)).length

/-- The label substitution `{1: "Disponível", 0: "Não disponível"}`. -/
def availLabel : Bool → String
  | true => "Disponível"
  | false => "Não disponível"

/-- Embeds `get_books_availability`: `GROUP BY copia_no_acervo` yields one
`(flag, count)` group per flag value that occurs in the rows (SQLite emits
the groups in ascending key order, 0 before 1), then the flag is mapped to
its label. -/
def get_books_availability (rows : List Book) : List (String × Nat) :=
  ((if 0 < countFlag rows false then [(false, countFlag rows false)] else []) ++
    (if 0 < countFlag rows true then [(true, countFlag rows true)] else [])).map
    (fun g => (availLabel g.1, g.2))

/-! ### The two filter callbacks -/

/-- Embeds `get_books_by_type`: the `(Tipo, Título, Autor)` projection of the
rows, in row order. -/
def get_books_by_type (rows : List Book) : List (String × String × String) :=
  rows.map (fun r => (r.tipo, r.titulo, r.autor))

/-- The filtering step of the `update_table` callback.  Python evaluates
`not selected_types`, which is `True` for `None` and for the empty list, so
both return the base frame; a non-empty selection keeps the rows whose `Tipo`
is a member of the selection (`isin`). -/
def applyTypeFilter (df : List (String × String × String)) :
    Option (List String) → List (String × String × String)
  | none => df
  | some ts => if ts.isEmpty then df else df.filter (fun r => decide (r.1 ∈ ts))

/-- Embeds the `update_table` callback: a fresh read of the base frame, then
the truthiness-guarded `isin` filter. -/
def update_table (rows : List Book) (selected_types : Option (List String)) :
    List (String × String × String) :=
  applyTypeFilter (get_books_by_type rows) selected_types

/-- Embeds `get_books_read_in_each_year`: the `(Título, Ano da leitura)`
projection of the rows that have a first-read year, ordered by year
descending. -/
def get_books_read_in_each_year (rows : List Book) : List (String × Int) :=
  ((rows.filterMap (fun r => r.ano_primeira_leitura.map (fun y => (r.titulo, y)))).mergeSort
    (fun a b => decide (b.2 ≤ a.2)))

/-- The filtering step of the `update_table_books_read_in_each_year` callback.
Python evaluates `not selected_year`, which is `True` for `None` and for the
integer `0`, so both return the base frame; any other year keeps the rows
whose `Ano da leitura` equals it. -/
def applyYearFilter (df : List (String × Int)) : Option Int → List (String × Int)
  | none => df
  | some y => if y = 0 then df else df.filter (fun r => r.2 == y)

/-- Embeds the `update_table_books_read_in_each_year` callback. -/
def update_table_books_read_in_each_year (rows : List Book) (selected_year : Option Int) :
    List (String × Int) :=
  applyYearFilter (get_books_read_in_each_year rows) selected_year

/-! ### Derived notions used in the statements -/

/-- The present prices of the rows that carry an acquisition year: exactly
the money the expenditure-by-year query can attribute to some year. -/
def pricesWithYear (rows : List Book) : List ℚ :=
  (rows.filter (fun r => r.ano_aquisicao.isSome)).filterMap (·.preco_pago)

/-! ### Sample rows for concrete instances -/

/-- Sample row: a book with a present price of 10 and no acquisition year. -/
def bookTen : Book :=
  ⟨"A", "T10", "Físico", some 10, none, none, true⟩

/-- Sample row: a book with a present price of 0. -/
def bookZero : Book :=
  ⟨"B", "T0", "Físico", some 0, none, none, true⟩

/-- Sample row: a book whose price is absent (NULL). -/
def bookNoPrice : Book :=
  ⟨"C", "TN", "Físico", none, none, none, true⟩

/-- Sample row: a digital book. -/
def bookDigital : Book :=
  ⟨"A", "TD", "Digital", some 20, some 2021, some 2021, true⟩

/-- Sample row: a physical (`Físico`) book. -/
def bookFisico : Book :=
  ⟨"B", "TF", "Físico", some 30, some 2022, some 2022, true⟩

/-- Sample row: a book acquired in 2020 for 5. -/
def bookFive2020 : Book :=
  ⟨"D", "T5", "Físico", some 5, some 2020, none, true⟩

/-- Sample row: an unavailable book (`copia_no_acervo` false). -/
def bookUnavailable : Book :=
  ⟨"B", "TU", "Físico", none, none, none, false⟩

/-! ## Lemmas about the SQL aggregates -/

theorem foldl_sqlSumStep_some (l : List (Option ℚ)) :
    ∀ a : ℚ, l.foldl sqlSumStep (some a) = some (a + (l.filterMap id).sum) := by
  induction l with
  | nil => intro a; simp
  | cons x t ih =>
    intro a
    cases x with
    | none => simpa [sqlSumStep] using ih a
    | some v => simp [sqlSumStep, ih (a + v), add_assoc]

theorem sqlSum_eq_some (l : List (Option ℚ)) (h : l.filterMap id ≠ []) :
    sqlSum l = some ((l.filterMap id).sum) := by
  induction l with
  | nil => simp at h
  | cons x t ih =>
    cases x with
    | none => simpa [sqlSum, sqlSumStep] using ih (by simpa using h)
    | some v =>
      simp only [sqlSum, List.foldl_cons, sqlSumStep, Option.getD_none]
      rw [foldl_sqlSumStep_some]
      simp

theorem sqlSum_eq_none (l : List (Option ℚ)) (h : l.filterMap id = []) :
    sqlSum l = none := by
  induction l with
  | nil => rfl
  | cons x t ih =>
    cases x with
    | none => simpa [sqlSum, sqlSumStep] using ih (by simpa using h)
    | some v => simp at h

theorem sqlSum_getD (l : List (Option ℚ)) :
    (sqlSum l).getD 0 = (l.filterMap id).sum := by
  by_cases h : l.filterMap id = []
  · rw [sqlSum_eq_none l h, h]; rfl
  · rw [sqlSum_eq_some l h]; rfl

theorem presentPrices_eq (rows : List Book) :
    (rows.map (·.preco_pago)).filterMap id = presentPrices rows := by
  rw [List.filterMap_map]; rfl

/-- C7 counterexample.  On a row set in which every price is absent, the SQL
`sum(preco_pago)` of `get_total_price_paid` is NULL, not the (empty) sum 0
over the present prices that the claim promises for every row set. -/
theorem get_total_price_paid_all_null :
    get_total_price_paid [bookNoPrice] ≠ some ((presentPrices [bookNoPrice]).sum) ∧
      get_total_price_paid [bookNoPrice] = none := by
  constructor
  · simp [get_total_price_paid, sqlSum, sqlSumStep, bookNoPrice]
  · rfl

/-- C7 (amended).  Whenever at least one row has a present price,
`get_total_price_paid` returns exactly the sum of the present prices: rows
with an absent price are excluded (not treated as 0) and a present zero price
contributes 0; with no present price at all the SQL sum is NULL instead. -/
theorem get_total_price_paid_spec (rows : List Book)
    (h : ∃ r ∈ rows, r.preco_pago ≠ none) :
    get_total_price_paid rows = some ((presentPrices rows).sum) := by
  rw [get_total_price_paid, ← presentPrices_eq rows]
  apply sqlSum_eq_some
  rw [presentPrices_eq, presentPrices, Ne, List.filterMap_eq_nil_iff]
  push_neg
  exact h

/-- C7 witness: the spec example `[{price 10}, {price 0}]` sums to 10. -/
theorem get_total_price_paid_spec_witness :
    (∃ r ∈ [bookTen, bookZero], r.preco_pago ≠ none) ∧
      get_total_price_paid [bookTen, bookZero] = some ((presentPrices [bookTen, bookZero]).sum) ∧
      get_total_price_paid [bookTen, bookZero] = some 10 := by
  refine ⟨⟨bookTen, by simp [bookTen]⟩,
    get_total_price_paid_spec _ ⟨bookTen, by simp [bookTen]⟩, ?_⟩
  simp [get_total_price_paid, sqlSum, sqlSumStep, bookTen, bookZero]

/-! ## Lemmas about the series completer -/

theorem foldl_min_le (l : List (Int × ℚ)) :
    ∀ a : Int, l.foldl (fun m q => min m q.1) a ≤ a := by
  induction l with
  | nil => intro a; simp
  | cons q t ih =>
    intro a
    simpa using le_trans (ih (min a q.1)) (min_le_left _ _)

theorem foldl_min_le_mem (l : List (Int × ℚ)) :
    ∀ a : Int, ∀ p ∈ l, l.foldl (fun m q => min m q.1) a ≤ p.1 := by
  induction l with
  | nil => intro a p hp; simp at hp
  | cons q t ih =>
    intro a p hp
    rcases List.mem_cons.1 hp with h | h
    · subst h
      simpa using le_trans (foldl_min_le t _) (min_le_right _ _)
    · exact ih _ p h

theorem le_foldl_max (l : List (Int × ℚ)) :
    ∀ a : Int, a ≤ l.foldl (fun m q => max m q.1) a := by
  induction l with
  | nil => intro a; simp
  | cons q t ih =>
    intro a
    simpa using le_trans (le_max_left a q.1) (ih (max a q.1))

theorem le_foldl_max_mem (l : List (Int × ℚ)) :
    ∀ a : Int, ∀ p ∈ l, p.1 ≤ l.foldl (fun m q => max m q.1) a := by
  induction l with
  | nil => intro a p hp; simp at hp
  | cons q t ih =>
    intro a p hp
    rcases List.mem_cons.1 hp with h | h
    · subst h
      simpa using le_trans (le_max_right a p.1) (le_foldl_max t _)
    · exact ih _ p h

theorem minKey_le (s : List (Int × ℚ)) (p : Int × ℚ) (hp : p ∈ s) :
    minKey s ≤ p.1 := by
  match s with
  | [] => simp at hp
  | q :: t =>
    rcases List.mem_cons.1 hp with h | h
    · subst h; exact foldl_min_le t _
    · exact foldl_min_le_mem t _ p h

theorem le_maxKey (s : List (Int × ℚ)) (p : Int × ℚ) (hp : p ∈ s) :
    p.1 ≤ maxKey s := by
  match s with
  | [] => simp at hp
  | q :: t =>
    rcases List.mem_cons.1 hp with h | h
    · subst h; exact le_foldl_max t _
    · exact le_foldl_max_mem t _ p h

theorem minKey_le_maxKey (s : List (Int × ℚ)) (h : s ≠ []) :
    minKey s ≤ maxKey s := by
  match s with
  | [] => exact absurd rfl h
  | q :: t =>
    exact le_trans (minKey_le (q :: t) q (List.mem_cons_self q t))
      (le_maxKey (q :: t) q (List.mem_cons_self q t))

theorem lookupYear_eq_some_of_mem (s : List (Int × ℚ)) (y : Int) (v : ℚ)
    (hnd : (s.map Prod.fst).Nodup) (hm : (y, v) ∈ s) :
    lookupYear s y = some v := by
  induction s with
  | nil => simp at hm
  | cons q t ih =>
    simp only [List.map_cons, List.nodup_cons] at hnd
    rcases List.mem_cons.1 hm with h | h
    · rw [← h]
      simp [lookupYear, List.find?_cons]
    · have hq : q.1 ≠ y := by
        intro hqy
        exact hnd.1 (hqy ▸ List.mem_map_of_mem Prod.fst h)
      have hb : (q.1 == y) = false := by simpa using hq
      simp only [lookupYear, List.find?_cons, hb]
      simpa [lookupYear] using ih hnd.2 h

theorem mem_of_lookupYear_eq_some (s : List (Int × ℚ)) (y : Int) (v : ℚ)
    (h : lookupYear s y = some v) : (y, v) ∈ s := by
  rw [lookupYear] at h
  rcases Option.map_eq_some'.1 h with ⟨p, hfind, hv⟩
  have hmem := List.mem_of_find?_eq_some hfind
  have hkey : p.1 = y := by simpa using List.find?_some hfind
  have : p = (y, v) := by
    rcases p with ⟨k, w⟩
    simp only at hkey hv
    rw [hkey, hv]
  exact this ▸ hmem

theorem lookupYear_eq_none (s : List (Int × ℚ)) (y : Int)
    (h : y ∉ s.map Prod.fst) : lookupYear s y = none := by
  rw [lookupYear, Option.map_eq_none', List.find?_eq_none]
  intro p hp hpy
  have hpe : p.1 = y := by simpa using hpy
  exact h (hpe ▸ List.mem_map_of_mem Prod.fst hp)

theorem length_completeRange (s : List (Int × ℚ)) (lo hi : Int) :
    (completeRange s lo hi).length = (hi - lo + 1).toNat := by
  rw [completeRange, List.length_map, List.length_range]

theorem getElem_completeRange (s : List (Int × ℚ)) (lo hi : Int) (i : Nat)
    (h : i < (completeRange s lo hi).length) :
    (completeRange s lo hi).get ⟨i, h⟩ =
      (lo + (i : Int), (lookupYear s (lo + (i : Int))).getD 0) := by
  simp only [completeRange, List.get_eq_getElem, List.getElem_map, List.getElem_range]

theorem mem_completeRange (s : List (Int × ℚ)) (lo hi : Int) (q : Int × ℚ)
    (h : q ∈ completeRange s lo hi) :
    q ∈ s ∨ (q.1 ∉ s.map Prod.fst ∧ q.2 = 0) := by
  rw [completeRange, List.mem_map] at h
  rcases h with ⟨i, _, hq⟩
  rcases hfind : lookupYear s (lo + (i : Int)) with _ | v
  · right
    subst hq
    refine ⟨?_, by simp [hfind]⟩
    intro hmem
    rcases List.mem_map.1 hmem with ⟨p, hp, hpk⟩
    rw [lookupYear, Option.map_eq_none', List.find?_eq_none] at hfind
    exact hfind p hp (by simpa using hpk)
  · left
    subst hq
    simpa [hfind] using mem_of_lookupYear_eq_some s (lo + (i : Int)) v hfind

theorem mem_completeRange_of_mem (s : List (Int × ℚ)) (lo hi : Int) (p : Int × ℚ)
    (hnd : (s.map Prod.fst).Nodup) (hp : p ∈ s) (hlo : lo ≤ p.1) (hhi : p.1 ≤ hi) :
    p ∈ completeRange s lo hi := by
  have hlen : (p.1 - lo).toNat < (completeRange s lo hi).length := by
    rw [length_completeRange]; omega
  have hyear : lo + (((p.1 - lo).toNat : Nat) : Int) = p.1 := by omega
  have hget := getElem_completeRange s lo hi (p.1 - lo).toNat hlen
  rw [hyear, lookupYear_eq_some_of_mem s p.1 p.2 hnd (by simpa using hp)] at hget
  have hval : (completeRange s lo hi).get ⟨(p.1 - lo).toNat, hlen⟩ = p := by
    rw [hget]; rfl
  exact hval ▸ List.get_mem _ _ _

/-- C1 (confirmed).  For a non-empty sparse year mapping (keys distinct, as
`GROUP BY` guarantees), the gap-filling step succeeds and produces one entry
per integer year from `minKey` to `maxKey` in ascending order, of length
`maxYear - minYear + 1`, keeping every sparse value at its year and holding 0
at every year not present in the sparse input. -/
theorem complete_spec (s : List (Int × ℚ)) (hne : s ≠ [])
    (hnd : (s.map Prod.fst).Nodup) :
    ∃ out, complete s = some out ∧
      (out.length : Int) = maxKey s - minKey s + 1 ∧
      (∀ i (h : i < out.length), (out.get ⟨i, h⟩).1 = minKey s + (i : Int)) ∧
      (∀ p ∈ s, p ∈ out) ∧
      (∀ q ∈ out, q ∈ s ∨ (q.1 ∉ s.map Prod.fst ∧ q.2 = 0)) := by
  match s, hne with
  | p₀ :: t, _ =>
    set s := p₀ :: t with hs
    refine ⟨completeRange s (minKey s) (maxKey s), rfl, ?_, ?_, ?_, ?_⟩
    · rw [length_completeRange]
      have := minKey_le_maxKey s (by simp [hs])
      omega
    · intro i h
      rw [getElem_completeRange]
    · intro p hp
      exact mem_completeRange_of_mem s _ _ p hnd hp (minKey_le s p hp) (le_maxKey s p hp)
    · intro q hq
      exact mem_completeRange s _ _ q hq

/-- C1 witness: the sparse mapping `[(2020, 1), (2022, 3)]` is non-empty with
distinct keys, so `complete` fills it to the three years 2020–2022. -/
theorem complete_spec_witness :
    (([((2020 : Int), (1 : ℚ)), (2022, 3)] : List (Int × ℚ)) ≠ []) ∧
      ∃ out, complete [((2020 : Int), (1 : ℚ)), (2022, 3)] = some out ∧
        (out.length : Int) =
          maxKey [((2020 : Int), (1 : ℚ)), (2022, 3)] -
            minKey [((2020 : Int), (1 : ℚ)), (2022, 3)] + 1 ∧
        (∀ i (h : i < out.length),
          (out.get ⟨i, h⟩).1 = minKey [((2020 : Int), (1 : ℚ)), (2022, 3)] + (i : Int)) ∧
        (∀ p ∈ ([((2020 : Int), (1 : ℚ)), (2022, 3)] : List (Int × ℚ)), p ∈ out) ∧
        (∀ q ∈ out, q ∈ ([((2020 : Int), (1 : ℚ)), (2022, 3)] : List (Int × ℚ)) ∨
          (q.1 ∉ ([((2020 : Int), (1 : ℚ)), (2022, 3)] : List (Int × ℚ)).map Prod.fst ∧ q.2 = 0)) :=
  ⟨by simp, complete_spec [((2020 : Int), (1 : ℚ)), (2022, 3)] (by simp) (by simp)⟩

/-- C8 counterexample.  On the empty sparse mapping the gap-filling step does
not return an empty series: the source raises a `TypeError` (from
`range(NaN, NaN + 1)`), modelled as `none`. -/
theorem complete_nil_not_empty_series :
    complete ([] : List (Int × ℚ)) ≠ some [] ∧ complete ([] : List (Int × ℚ)) = none :=
  ⟨by simp [complete], rfl⟩

/-- C8 (amended).  The gap-filling step fails (raises, modelled as `none`)
exactly on the empty sparse mapping; it never fabricates a synthetic range
for it, and on every non-empty mapping it produces a series. -/
theorem complete_eq_none_iff (s : List (Int × ℚ)) :
    complete s = none ↔ s = [] := by
  cases s <;> simp [complete]

/-! ## The filter callbacks -/

theorem applyTypeFilter_idem (df : List (String × String × String))
    (sel : Option (List String)) :
    applyTypeFilter (applyTypeFilter df sel) sel = applyTypeFilter df sel := by
  cases sel with
  | none => rfl
  | some ts =>
    by_cases h : ts.isEmpty
    · simp [applyTypeFilter, h]
    · simp [applyTypeFilter, h, List.filter_filter]

theorem applyYearFilter_idem (df : List (String × Int)) (sel : Option Int) :
    applyYearFilter (applyYearFilter df sel) sel = applyYearFilter df sel := by
  cases sel with
  | none => rfl
  | some y =>
    by_cases h : y = 0
    · simp [applyYearFilter, h]
    · simp [applyYearFilter, h, List.filter_filter]

/-- C4 (confirmed).  An empty selection — `None` for either dropdown, and
also the empty list for the multi-select type filter — is falsy in Python, so
both callbacks return the full freshly-read base frame unchanged.  Both
embedded callbacks are total functions, so no exception is raised on the
empty selection. -/
theorem filters_empty_selection_identity (rows : List Book) :
    update_table rows none = get_books_by_type rows ∧
      update_table rows (some []) = get_books_by_type rows ∧
      update_table_books_read_in_each_year rows none = get_books_read_in_each_year rows :=
  ⟨rfl, rfl, rfl⟩

/-- C5 (confirmed).  Both filter steps are idempotent: re-applying the same
selection to the output of either callback returns that output unchanged
(bit-identical), so two successive applications of one selection agree. -/
theorem filters_idempotent (rows : List Book) (sel : Option (List String))
    (y : Option Int) :
    applyTypeFilter (update_table rows sel) sel = update_table rows sel ∧
      applyYearFilter (update_table_books_read_in_each_year rows y) y =
        update_table_books_read_in_each_year rows y :=
  ⟨applyTypeFilter_idem _ sel, applyYearFilter_idem _ y⟩

/-- C6 (confirmed).  A non-empty type selection reduces the base frame to
exactly the rows whose `Tipo` is a member of the selection, as a sublist of
the base frame (hence in the original relative order). -/
theorem update_table_membership (rows : List Book) (ts : List String) (h : ts ≠ []) :
    update_table rows (some ts) =
        (get_books_by_type rows).filter (fun r => decide (r.1 ∈ ts)) ∧
      (update_table rows (some ts)).Sublist (get_books_by_type rows) ∧
      ∀ r, r ∈ update_table rows (some ts) ↔ r ∈ get_books_by_type rows ∧ r.1 ∈ ts := by
  have hne : ts.isEmpty = false := by
    cases ts with
    | nil => exact absurd rfl h
    | cons a t => rfl
  have heq : update_table rows (some ts) =
      (get_books_by_type rows).filter (fun r => decide (r.1 ∈ ts)) := by
    simp [update_table, applyTypeFilter, hne]
  refine ⟨heq, ?_, ?_⟩
  · rw [heq]; exact List.filter_sublist _
  · intro r
    rw [heq]
    simp [List.mem_filter]

/-- C6 witness: filtering rows of both types by the selection `["Digital"]`
keeps exactly the digital subset, in base order. -/
theorem update_table_membership_witness :
    ((["Digital"] : List String) ≠ []) ∧
      (update_table [bookDigital, bookFisico] (some ["Digital"]) =
          (get_books_by_type [bookDigital, bookFisico]).filter
            (fun r => decide (r.1 ∈ (["Digital"] : List String))) ∧
        (update_table [bookDigital, bookFisico] (some ["Digital"])).Sublist
          (get_books_by_type [bookDigital, bookFisico]) ∧
        ∀ r, r ∈ update_table [bookDigital, bookFisico] (some ["Digital"]) ↔
          r ∈ get_books_by_type [bookDigital, bookFisico] ∧
            r.1 ∈ (["Digital"] : List String)) :=
  ⟨by decide, update_table_membership [bookDigital, bookFisico] ["Digital"] (by decide)⟩

/-- C10 (confirmed).  The year callback tests only Python truthiness of the
selection: the falsy year 0 behaves exactly like no selection at all, and the
full base frame is returned rather than the rows whose year equals 0. -/
theorem update_table_year_zero_identity (rows : List Book) :
    update_table_books_read_in_each_year rows (some 0) = get_books_read_in_each_year rows ∧
      update_table_books_read_in_each_year rows (some 0) =
        update_table_books_read_in_each_year rows none := by
  constructor <;> simp [update_table_books_read_in_each_year, applyYearFilter]

/-! ## Average price over zero qualifying rows -/

theorem sqlAvg_nil : sqlAvg [] = none := rfl

/-- C3 (amended).  When no row qualifies (`preco_pago > 0` fails everywhere),
the SQL average is NULL, and both average-price figures carry that raw NULL
as their displayed indicator value: the code returns neither 0 nor an
explicit `Undefined`, and the NULL flows into formatting unhandled. -/
theorem avg_price_zero_rows_null (rows : List Book)
    (h : ∀ r ∈ rows, qualifying r = false) :
    avg_book_price_query rows = none ∧
      (get_avg_books_price rows).value = none ∧
      (get_avg_books_price rows).value ≠ some 0 ∧
      ∀ t, (get_avg_book_price_by_type rows t).value = none := by
  have hq : rows.filter qualifying = [] := by
    rw [List.filter_eq_nil_iff]
    intro r hr
    simp [h r hr]
  have h1 : avg_book_price_query rows = none := by
    rw [avg_book_price_query, hq]
    rfl
  refine ⟨h1, h1, by simp [get_avg_books_price, h1], ?_⟩
  intro t
  have hq2 : rows.filter (fun r => r.tipo == t && qualifying r) = [] := by
    rw [List.filter_eq_nil_iff]
    intro r hr
    simp [h r hr]
  show avg_book_price_by_type_query rows t = none
  rw [avg_book_price_by_type_query, hq2]
  rfl

/-- C3 witness: a single row with a present price of 0 has no qualifying
rows, and both indicators display the NULL. -/
theorem avg_price_zero_rows_null_witness :
    (∀ r ∈ [bookZero], qualifying r = false) ∧
      (avg_book_price_query [bookZero] = none ∧
        (get_avg_books_price [bookZero]).value = none ∧
        (get_avg_books_price [bookZero]).value ≠ some 0 ∧
        ∀ t, (get_avg_book_price_by_type [bookZero] t).value = none) := by
  have h : ∀ r ∈ [bookZero], qualifying r = false := by
    intro r hr
    simp only [List.mem_singleton] at hr
    subst hr
    simp [qualifying, bookZero]
  exact ⟨h, avg_price_zero_rows_null [bookZero] h⟩

/-- C3 counterexample.  On the row set `[bookZero]` (one present price of 0,
hence zero qualifying rows) the query scalar is the database NULL and
`get_avg_books_price` propagates exactly that NULL as the indicator value —
there is no distinct `Undefined` result handled before formatting, contrary
to the claim. -/
theorem avg_price_null_propagates_counterexample :
    avg_book_price_query [bookZero] = none ∧
      (get_avg_books_price [bookZero]).value = avg_book_price_query [bookZero] ∧
      (get_avg_books_price [bookZero]).value ≠ some 0 := by
  refine ⟨?_, rfl, ?_⟩ <;>
    simp [get_avg_books_price, avg_book_price_query, sqlAvg, qualifying, bookZero]

/-! ## Availability labels -/

theorem countFlag_pos (rows : List Book) (b : Bool)
    (h : ∃ r ∈ rows, r.copia_no_acervo = b) : 0 < countFlag rows b := by
  rcases h with ⟨r, hr, hb⟩
  rw [countFlag, List.length_pos]
  exact List.ne_nil_of_mem (List.mem_filter.2 ⟨hr, by simp [hb]⟩)

/-- C9 (amended).  `GROUP BY copia_no_acervo` yields one group per flag value
actually present, so the availability chart has exactly the two labels
`Não disponível` / `Disponível` precisely when rows of both flag values
exist; with only one flag value present only that one label appears. -/
theorem get_books_availability_both_flags (rows : List Book)
    (ht : ∃ r ∈ rows, r.copia_no_acervo = true)
    (hf : ∃ r ∈ rows, r.copia_no_acervo = false) :
    get_books_availability rows =
        [("Não disponível", countFlag rows false), ("Disponível", countFlag rows true)] ∧
      (get_books_availability rows).map Prod.fst = ["Não disponível", "Disponível"] := by
  have h1 := countFlag_pos rows true ht
  have h0 := countFlag_pos rows false hf
  have heq : get_books_availability rows =
      [("Não disponível", countFlag rows false), ("Disponível", countFlag rows true)] := by
    rw [get_books_availability, if_pos h0, if_pos h1]
    rfl
  exact ⟨heq, by rw [heq]; rfl⟩

/-- C9 witness: with one available and one unavailable row both labels
appear. -/
theorem get_books_availability_both_flags_witness :
    (∃ r ∈ [bookTen, bookUnavailable], r.copia_no_acervo = true) ∧
      (∃ r ∈ [bookTen, bookUnavailable], r.copia_no_acervo = false) ∧
      (get_books_availability [bookTen, bookUnavailable] =
          [("Não disponível", countFlag [bookTen, bookUnavailable] false),
            ("Disponível", countFlag [bookTen, bookUnavailable] true)] ∧
        (get_books_availability [bookTen, bookUnavailable]).map Prod.fst =
          ["Não disponível", "Disponível"]) := by
  refine ⟨⟨bookTen, by simp [bookTen]⟩, ⟨bookUnavailable, by simp [bookUnavailable]⟩, ?_⟩
  exact get_books_availability_both_flags _ ⟨bookTen, by simp [bookTen]⟩
    ⟨bookUnavailable, by simp [bookUnavailable]⟩

/-- C9 counterexample.  When every row has the same flag value (here: a single
available row), `GROUP BY` produces a single group, so the chart gets one
label, not the two the claim promises. -/
theorem get_books_availability_single_flag :
    get_books_availability [bookTen] = [("Disponível", 1)] ∧
      (get_books_availability [bookTen]).length ≠ 2 := by
  constructor <;> simp [get_books_availability, countFlag, availLabel, bookTen]

/-! ## The cumulative expenditure versus the grand total -/

theorem sum_map_add {α : Type} (l : List α) (f g : α → ℚ) :
    (l.map (fun x => f x + g x)).sum = (l.map f).sum + (l.map g).sum := by
  induction l with
  | nil => simp
  | cons a t ih => simp [ih]; ring

theorem sum_map_ite (ys : List Int) (k : Int) (v : ℚ) (hnd : ys.Nodup)
    (hk : k ∈ ys) : (ys.map (fun y => if y = k then v else 0)).sum = v := by
  induction ys with
  | nil => simp at hk
  | cons a t ih =>
    rw [List.nodup_cons] at hnd
    rcases List.mem_cons.1 hk with h | h
    · subst h
      have hz : (t.map (fun y => if y = k then v else 0)).sum = 0 := by
        apply List.sum_eq_zero
        intro x hx
        rcases List.mem_map.1 hx with ⟨y, hy, rfl⟩
        rw [if_neg]
        intro hyk
        exact hnd.1 (hyk ▸ hy)
      simp [hz]
    · have ha : a ≠ k := by
        intro hak
        exact hnd.1 (hak ▸ h)
      simp [ha, ih hnd.2 h]

theorem lookupYear_cons_self (k : Int) (v : ℚ) (t : List (Int × ℚ)) :
    lookupYear ((k, v) :: t) k = some v := by
  simp [lookupYear, List.find?_cons]

theorem lookupYear_cons_ne (k : Int) (v : ℚ) (t : List (Int × ℚ)) (y : Int)
    (h : k ≠ y) : lookupYear ((k, v) :: t) y = lookupYear t y := by
  have hb : (k == y) = false := by simpa using h
  simp [lookupYear, List.find?_cons, hb]

theorem sum_lookup_getD (years : List Int) (s : List (Int × ℚ))
    (hynd : years.Nodup) (hknd : (s.map Prod.fst).Nodup)
    (hsub : ∀ p ∈ s, p.1 ∈ years) :
    (years.map (fun y => (lookupYear s y).getD 0)).sum = (s.map Prod.snd).sum := by
  induction s with
  | nil =>
    simp only [List.map_nil, List.sum_nil]
    apply List.sum_eq_zero
    intro x hx
    rcases List.mem_map.1 hx with ⟨y, _, rfl⟩
    simp [lookupYear]
  | cons p t ih =>
    rcases p with ⟨k, v⟩
    simp only [List.map_cons, List.nodup_cons] at hknd
    have hkt : lookupYear t k = none :=
      lookupYear_eq_none t k hknd.1
    have hpoint : ∀ y ∈ years,
        (lookupYear ((k, v) :: t) y).getD 0 =
          (if y = k then v else 0) + (lookupYear t y).getD 0 := by
      intro y _
      by_cases hy : y = k
      · subst hy
        rw [lookupYear_cons_self, hkt]
        simp
      · rw [lookupYear_cons_ne k v t y (Ne.symm hy), if_neg hy, zero_add]
    rw [List.map_congr_left hpoint, sum_map_add,
      sum_map_ite years k v hynd (hsub (k, v) (List.mem_cons_self _ _)),
      ih hknd.2 (fun p hp => hsub p (List.mem_cons_of_mem _ hp))]
    simp

theorem sum_completeRange (s : List (Int × ℚ)) (lo hi : Int)
    (hknd : (s.map Prod.fst).Nodup)
    (hbounds : ∀ p ∈ s, lo ≤ p.1 ∧ p.1 ≤ hi) :
    ((completeRange s lo hi).map Prod.snd).sum = (s.map Prod.snd).sum := by
  have hinj : Function.Injective (fun (i : Nat) => lo + (i : Int)) := by
    intro a b hab
    simp only at hab
    omega
  have hmm : (completeRange s lo hi).map Prod.snd =
      ((List.range (hi - lo + 1).toNat).map (fun (i : Nat) => lo + (i : Int))).map
        (fun y => (lookupYear s y).getD 0) := by
    rw [completeRange, List.map_map, List.map_map]
    rfl
  rw [hmm]
  apply sum_lookup_getD
  · exact (List.nodup_range _).map hinj
  · exact hknd
  · intro p hp
    rw [List.mem_map]
    refine ⟨(p.1 - lo).toNat, List.mem_range.2 ?_, ?_⟩
    · have := hbounds p hp
      omega
    · have := hbounds p hp
      omega

theorem cumAux_cons (acc : ℚ) (p : Int × ℚ) (rest : List (Int × ℚ)) :
    cumAux acc (p :: rest) = (p.1, p.2, acc + p.2) :: cumAux (acc + p.2) rest := by
  rcases p with ⟨y, v⟩
  rfl

theorem getLast?_cons_of_ne_nil {α : Type} (a : α) (l : List α) (h : l ≠ []) :
    (a :: l).getLast? = l.getLast? := by
  cases l with
  | nil => exact absurd rfl h
  | cons b t => exact List.getLast?_cons_cons

theorem cumAux_getLast (l : List (Int × ℚ)) :
    ∀ acc : ℚ, l ≠ [] →
      ∃ y v, (cumAux acc l).getLast? = some (y, v, acc + (l.map Prod.snd).sum) := by
  induction l with
  | nil => intro acc h; exact absurd rfl h
  | cons p t ih =>
    intro acc _
    rcases p with ⟨y, v⟩
    cases t with
    | nil =>
      refine ⟨y, v, ?_⟩
      simp [cumAux]
    | cons q t2 =>
      rcases ih (acc + v) (by simp) with ⟨y2, v2, h2⟩
      refine ⟨y2, v2, ?_⟩
      rw [cumAux_cons, getLast?_cons_of_ne_nil _ _ (by rw [cumAux_cons]; simp), h2]
      simp [add_assoc]

theorem yearExpend_eq (rows : List Book) (y : Int) :
    yearExpend rows y =
      ((rows.filter (fun r => r.ano_aquisicao == some y)).filterMap (·.preco_pago)).sum := by
  rw [yearExpend, sqlSum_getD, List.filterMap_map]
  rfl

theorem yearExpend_cons (r : Book) (t : List Book) (y : Int) :
    yearExpend (r :: t) y =
      (if r.ano_aquisicao = some y then r.preco_pago.getD 0 else 0) + yearExpend t y := by
  rw [yearExpend_eq, yearExpend_eq, List.filter_cons]
  by_cases h : r.ano_aquisicao = some y
  · rw [if_pos (by simpa using h), if_pos h, List.filterMap_cons]
    cases hp : r.preco_pago with
    | none => simp
    | some p => simp
  · rw [if_neg (by simpa using h), if_neg h, zero_add]

theorem presentPrices_cons (r : Book) (t : List Book) :
    presentPrices (r :: t) = r.preco_pago.toList ++ presentPrices t := by
  rw [presentPrices, List.filterMap_cons]
  cases r.preco_pago <;> rfl

theorem pricesWithYear_cons_none (r : Book) (t : List Book)
    (h : r.ano_aquisicao = none) : pricesWithYear (r :: t) = pricesWithYear t := by
  rw [pricesWithYear, List.filter_cons, if_neg (by simp [h])]
  rfl

theorem pricesWithYear_cons_some (r : Book) (t : List Book) (k : Int)
    (h : r.ano_aquisicao = some k) :
    pricesWithYear (r :: t) = r.preco_pago.toList ++ pricesWithYear t := by
  rw [pricesWithYear, List.filter_cons, if_pos (by simp [h]), List.filterMap_cons]
  cases r.preco_pago <;> rfl

theorem toList_sum (o : Option ℚ) : o.toList.sum = o.getD 0 := by
  cases o <;> simp

theorem sum_yearExpend (rows : List Book) (years : List Int) (hnd : years.Nodup)
    (hcov : ∀ r ∈ rows, ∀ y, r.ano_aquisicao = some y → y ∈ years) :
    (years.map (fun y => yearExpend rows y)).sum = (pricesWithYear rows).sum := by
  induction rows with
  | nil =>
    simp only [pricesWithYear, List.filter_nil, List.filterMap_nil, List.sum_nil]
    apply List.sum_eq_zero
    intro x hx
    rcases List.mem_map.1 hx with ⟨y, _, rfl⟩
    simp [yearExpend_eq]
  | cons r t ih =>
    have hcovt : ∀ r ∈ t, ∀ y, r.ano_aquisicao = some y → y ∈ years :=
      fun r hr => hcov r (List.mem_cons_of_mem _ hr)
    have hsplit : (years.map (fun y => yearExpend (r :: t) y)).sum =
        (years.map (fun y =>
          if r.ano_aquisicao = some y then r.preco_pago.getD 0 else 0)).sum +
          (years.map (fun y => yearExpend t y)).sum := by
      rw [← sum_map_add]
      exact congrArg List.sum (List.map_congr_left (fun y _ => yearExpend_cons r t y))
    rw [hsplit, ih hcovt]
    cases ha : r.ano_aquisicao with
    | none =>
      have hz : (years.map (fun y =>
          if (none : Option Int) = some y then r.preco_pago.getD 0 else 0)).sum = 0 := by
        apply List.sum_eq_zero
        intro x hx
        rcases List.mem_map.1 hx with ⟨y, _, rfl⟩
        simp
      rw [hz, zero_add, pricesWithYear_cons_none r t ha]
    | some k =>
      have hin : k ∈ years := hcov r (List.mem_cons_self _ _) k ha
      have hcong : ∀ y ∈ years,
          (if (some k : Option Int) = some y then r.preco_pago.getD 0 else 0) =
            (if y = k then r.preco_pago.getD 0 else 0) := by
        intro y _
        by_cases hyk : y = k
        · subst hyk
          simp
        · rw [if_neg (by simpa using Ne.symm hyk), if_neg hyk]
      rw [List.map_congr_left hcong, sum_map_ite years k _ hnd hin,
        pricesWithYear_cons_some r t k ha, List.sum_append, toList_sum]

theorem acqYears_nodup (rows : List Book) : (acqYears rows).Nodup :=
  List.nodup_dedup _

theorem mem_acqYears (rows : List Book) (r : Book) (y : Int)
    (hr : r ∈ rows) (hy : r.ano_aquisicao = some y) : y ∈ acqYears rows :=
  List.mem_dedup.2 (List.mem_filterMap.2 ⟨r, hr, hy⟩)

theorem expenditureSparse_keys (rows : List Book) :
    (expenditureSparse rows).map Prod.fst = acqYears rows := by
  rw [expenditureSparse, List.map_map]
  exact List.map_id _

theorem expenditureSparse_values (rows : List Book) :
    (expenditureSparse rows).map Prod.snd =
      (acqYears rows).map (fun y => yearExpend rows y) := by
  rw [expenditureSparse, List.map_map]
  rfl

theorem complete_of_ne_nil (s : List (Int × ℚ)) (h : s ≠ []) :
    complete s = some (completeRange s (minKey s) (maxKey s)) := by
  cases s with
  | nil => exact absurd rfl h
  | cons p t => rfl

theorem pricesWithYear_eq_presentPrices (rows : List Book)
    (hpay : ∀ r ∈ rows, r.preco_pago ≠ none → r.ano_aquisicao ≠ none) :
    pricesWithYear rows = presentPrices rows := by
  induction rows with
  | nil => rfl
  | cons r t ih =>
    have ihpay : ∀ r ∈ t, r.preco_pago ≠ none → r.ano_aquisicao ≠ none :=
      fun r hr => hpay r (List.mem_cons_of_mem _ hr)
    cases ha : r.ano_aquisicao with
    | none =>
      have hpn : r.preco_pago = none := by
        by_contra hne
        exact hpay r (List.mem_cons_self _ _) hne ha
      rw [pricesWithYear_cons_none r t ha, presentPrices_cons, hpn]
      simpa using ih ihpay
    | some k =>
      rw [pricesWithYear_cons_some r t k ha, presentPrices_cons, ih ihpay]

/-- C2 (amended).  When at least one row has an acquisition year (so the
pipeline does not fail) the last entry of the cumulative expenditure series
totals exactly the present prices of the rows that have an acquisition year
(`pricesWithYear`); and under the additional premise that every priced row
carries an acquisition year (with at least one priced row), that last
cumulative value coincides with the grand total `get_total_price_paid`.
Rows that carry a price but no acquisition year are excluded from the
cumulative series while still counted in the grand total, so the claimed
unconditional equality holds only under that premise. -/
theorem get_expenditure_cumulative_total (rows : List Book)
    (hy : ∃ r ∈ rows, r.ano_aquisicao ≠ none)
    (hpay : ∀ r ∈ rows, r.preco_pago ≠ none → r.ano_aquisicao ≠ none)
    (hp : ∃ r ∈ rows, r.preco_pago ≠ none) :
    ∃ out y v c, get_expenditure_by_year rows = some out ∧
      out.getLast? = some (y, v, c) ∧
      c = (pricesWithYear rows).sum ∧
      get_total_price_paid rows = some c := by
  have hsne : expenditureSparse rows ≠ [] := by
    rcases hy with ⟨r, hr, ha⟩
    rcases Option.ne_none_iff_exists'.1 ha with ⟨k, hk⟩
    have : k ∈ acqYears rows := mem_acqYears rows r k hr hk
    rw [expenditureSparse, Ne, List.map_eq_nil_iff]
    exact List.ne_nil_of_mem this
  have hknd : ((expenditureSparse rows).map Prod.fst).Nodup := by
    rw [expenditureSparse_keys]
    exact acqYears_nodup rows
  have hlole : minKey (expenditureSparse rows) ≤ maxKey (expenditureSparse rows) :=
    minKey_le_maxKey _ hsne
  have hcrne : completeRange (expenditureSparse rows) (minKey (expenditureSparse rows))
      (maxKey (expenditureSparse rows)) ≠ [] := by
    rw [← List.length_pos, length_completeRange]
    omega
  rcases cumAux_getLast _ 0 hcrne with ⟨y, v, hlast⟩
  have hsum : ((completeRange (expenditureSparse rows) (minKey (expenditureSparse rows))
      (maxKey (expenditureSparse rows))).map Prod.snd).sum = (pricesWithYear rows).sum := by
    rw [sum_completeRange _ _ _ hknd
      (fun p hp => ⟨minKey_le _ p hp, le_maxKey _ p hp⟩)]
    rw [expenditureSparse_values]
    exact sum_yearExpend rows (acqYears rows) (acqYears_nodup rows)
      (fun r hr k hk => mem_acqYears rows r k hr hk)
  refine ⟨_, y, v, (pricesWithYear rows).sum,
    by rw [get_expenditure_by_year, complete_of_ne_nil _ hsne, Option.map_some'], ?_, rfl, ?_⟩
  · rw [hlast, hsum, zero_add]
  · have hne2 : presentPrices rows ≠ [] := by
      rw [presentPrices, Ne, List.filterMap_eq_nil_iff]
      push_neg
      rcases hp with ⟨r, hr, hpr⟩
      exact ⟨r, hr, hpr⟩
    rw [pricesWithYear_eq_presentPrices rows hpay, get_total_price_paid,
      ← presentPrices_eq rows, sqlSum_eq_some _ (by rwa [presentPrices_eq])]


/-- C2 counterexample.  `bookTen` costs 10 but has no acquisition year: the
expenditure query (filtered on `ano_aquisicao IS NOT NULL`) drops it, so the
cumulative series ends at 5, while `get_total_price_paid` sums every present
price and reports 15 — the claimed equality fails on this row set. -/
theorem expenditure_cumulative_mismatch :
    get_expenditure_by_year [bookTen, bookFive2020] = some [(2020, 5, 5)] ∧
      get_total_price_paid [bookTen, bookFive2020] = some 15 ∧
      ((5 : ℚ) ≠ 15) := by
  refine ⟨?_, ?_, by norm_num⟩
  · simp [get_expenditure_by_year, complete, expenditureSparse, acqYears, yearExpend, sqlSum,
      sqlSumStep, completeRange, minKey, maxKey, lookupYear, cumAux, List.dedup_cons_of_not_mem,
      List.range_succ, bookTen, bookFive2020]
  · norm_num [get_total_price_paid, sqlSum, sqlSumStep, bookTen, bookFive2020]

/-- C2 witness: on the single row `bookFive2020` every priced row has an
acquisition year, and the cumulative series ends exactly at the grand
total. -/
theorem get_expenditure_cumulative_total_witness :
    (∃ r ∈ [bookFive2020], r.ano_aquisicao ≠ none) ∧
      (∀ r ∈ [bookFive2020], r.preco_pago ≠ none → r.ano_aquisicao ≠ none) ∧
      (∃ r ∈ [bookFive2020], r.preco_pago ≠ none) ∧
      ∃ out y v c, get_expenditure_by_year [bookFive2020] = some out ∧
        out.getLast? = some (y, v, c) ∧
        c = (pricesWithYear [bookFive2020]).sum ∧
        get_total_price_paid [bookFive2020] = some c := by
  have h1 : ∃ r ∈ [bookFive2020], r.ano_aquisicao ≠ none :=
    ⟨bookFive2020, by simp [bookFive2020]⟩
  have h2 : ∀ r ∈ [bookFive2020], r.preco_pago ≠ none → r.ano_aquisicao ≠ none := by
    intro r hr _
    simp only [List.mem_singleton] at hr
    subst hr
    simp [bookFive2020]
  have h3 : ∃ r ∈ [bookFive2020], r.preco_pago ≠ none :=
    ⟨bookFive2020, by simp [bookFive2020]⟩
  exact ⟨h1, h2, h3, get_expenditure_cumulative_total [bookFive2020] h1 h2 h3⟩

end LibBoard
